import Mathlib

/-!
Verification development for the up4w windows agent.

Two groups of definitions:

* The per-distro task-processing engine (`distro` package). Its source file is
  absent from the corpus (only `distro_test.go` is present), so the engine is
  modelled from the spec, faithfully following the algorithm of spec sections
  3, 4.1-4.5 and 8, and cross-checked against the expectations encoded in
  `distro_test.go`.

* The registry-backed `config` package (`Config`, `Subscription`,
  `SetSubscription`, `SetLandscapeAgentUID`), embedded directly from the Go
  source of `src/unnamed/part_002`.
-/

namespace UP4W

/-! ### Connection slot (spec section 4.3) -/

/-- Modelled from the spec: the Connection Slot of `distro.Distro` (the file
`distro.go` is missing from the corpus; only its tests are present). A
thread-safe single-value holder for zero-or-one live RPC client capability. -/
structure ConnSlot (K : Type) where conn : Option K
deriving DecidableEq

/-- Modelled from the spec: `SetConnection(capability | none)` replaces the
held capability (spec section 4.3). -/
def ConnSlot.SetConnection (_s : ConnSlot K) (c : Option K) : ConnSlot K := ⟨c⟩

/-- Modelled from the spec: `Client()` returns the current value without
blocking (spec section 4.3). -/
def ConnSlot.Client (s : ConnSlot K) : Option K := s.conn

/-- Modelled from the spec: `IsActive()` is true iff a capability is currently
held (spec section 4.3). -/
def ConnSlot.IsActive (s : ConnSlot K) : Bool := s.conn.isSome

/-! ### Task queue (spec sections 3 and 4.1) -/

/-- Modelled from the spec: the two failure conditions of `SubmitTask`:
QueueFull once pending count equals capacity, Closed after Cleanup (spec
section 4.1 and section 7). -/
inductive SubmitError where
| queueFull
| closed
deriving DecidableEq

/-- Modelled from the spec: the bounded FIFO of pending tasks of one distro,
created empty at construction, permanently closed after Cleanup (spec
section 3). -/
structure TaskQueue (T : Type) where
  capacity : Nat
  pending : List T
  closed : Bool

/-- Modelled from the spec: `SubmitTask` fails with Closed after Cleanup,
fails with QueueFull once the number of pending tasks equals the fixed
capacity, and otherwise appends the task, preserving FIFO order (spec
section 4.1). -/
def TaskQueue.SubmitTask (q : TaskQueue T) (t : T) : Except SubmitError (TaskQueue T) :=
  if q.closed then .error .closed
  else if q.capacity ≤ q.pending.length then .error .queueFull
  else .ok ⟨q.capacity, q.pending ++ [t], false⟩

/-- Modelled from the spec: the worker dequeues the oldest pending task (FIFO,
spec sections 2 and 4.1). -/
def TaskQueue.dequeue (q : TaskQueue T) : Option (T × TaskQueue T) :=
  match q.pending with
  | [] => none
  | t :: ts => some (t, ⟨q.capacity, ts, q.closed⟩)

/-- Modelled from the spec: Cleanup permanently closes the queue to new
entries (spec section 3). -/
def TaskQueue.cleanup (q : TaskQueue T) : TaskQueue T := ⟨q.capacity, q.pending, true⟩

/-- Submitting a list of tasks in order, stopping at the first failure. -/
def TaskQueue.submitAll : TaskQueue T → List T → Except SubmitError (TaskQueue T)
  | q, [] => .ok q
  | q, t :: ts =>
    match q.SubmitTask t with
    | .error e => .error e
    | .ok q2 => q2.submitAll ts

/-! ### Distro aggregate, construction and identity validation
(spec sections 3, 4.5) -/

/-- Descriptive properties of a distro, immutable and informational only
(spec section 3; field names as in `distro_test.go`). -/
structure Props where
  DistroID : String
  VersionID : String
  PrettyName : String
  ProAttached : Bool
deriving DecidableEq

/-- Modelled from the spec: the Construction/Validation error: identity absent
or mismatched (spec section 7; named `NotExistError` in `distro_test.go`). -/
inductive NotExistError where
| mk
deriving DecidableEq

/-- Modelled from the spec: the fixed capacity of the task queue (spec
section 8 concrete scenario: capacity = 10; exported as `TaskQueueSize` in
`distro_test.go`). -/
def TaskQueueSize : Nat := 10

/-- Modelled from the spec: the Instance aggregate: identity (name and GUID,
immutable after construction), descriptive properties, one queue, one
connection slot, and lifecycle state (spec section 3). `K` is the RPC client
capability type, `T` the task type. -/
structure Distro (K T : Type) where
  Name : String
  GUID : String
  Properties : Props
  queue : TaskQueue T
  slot : ConnSlot K
  stopped : Bool

/-- Modelled from the spec: construction consults the external registry
(modelled as a map from name to the canonical identity of a registered
endpoint) to confirm the named endpoint exists; a given identity constraint
must match the registry's current identity for that name, else construction
fails with NotExist and no Instance is created (spec section 4.5). -/
def New (reg : String → Option String) (name : String) (props : Props)
    (guidArg : Option String) : Except NotExistError (Distro K T) :=
  match reg name with
  | none => .error .mk
  | some g =>
    match guidArg with
    | none => .ok ⟨name, g, props, ⟨TaskQueueSize, [], false⟩, ⟨none⟩, false⟩
    | some g2 =>
      if g2 = g then .ok ⟨name, g, props, ⟨TaskQueueSize, [], false⟩, ⟨none⟩, false⟩
      else .error .mk

/-- Modelled from the spec: `IsValid()` re-checks liveness by comparing the
stored identity against the registry's current answer for the stored name; it
reports a boolean and never itself fails (total function, spec section 4.5). -/
def Distro.IsValid (d : Distro K T) (reg : String → Option String) : Bool :=
  match reg d.Name with
  | none => false
  | some g => g == d.GUID

/-- Modelled from the spec: `SubmitTask` on the Instance delegates to its
queue (spec sections 4.1 and 6). -/
def Distro.SubmitTask (d : Distro K T) (t : T) : Except SubmitError (Distro K T) :=
  match d.queue.SubmitTask t with
  | .error e => .error e
  | .ok q => .ok ⟨d.Name, d.GUID, d.Properties, q, d.slot, d.stopped⟩

/-- Modelled from the spec: `SetConnection` on the Instance delegates to its
connection slot (spec sections 4.3 and 6). -/
def Distro.SetConnection (d : Distro K T) (c : Option K) : Distro K T :=
  ⟨d.Name, d.GUID, d.Properties, d.queue, d.slot.SetConnection c, d.stopped⟩

/-- Modelled from the spec: `Client` on the Instance reads its slot. -/
def Distro.Client (d : Distro K T) : Option K := d.slot.Client

/-- Modelled from the spec: `IsActive` on the Instance reads its slot. -/
def Distro.IsActive (d : Distro K T) : Bool := d.slot.IsActive

/-- Modelled from the spec: Cleanup cancels the worker and permanently closes
the queue to new submissions; it is idempotent and safe to call more than once
(spec sections 2, 3 and 5). -/
def Distro.Cleanup (d : Distro K T) : Distro K T :=
  ⟨d.Name, d.GUID, d.Properties, d.queue.cleanup, d.slot, true⟩

/-! ### Processing worker (spec sections 4.2 and 4.4)

Time is discrete: one unit per polling tick of the wait-for-connection loop
(spec step 3). The environment is a function `slot : Nat → Option K` giving
the Connection Slot content the worker observes at each tick, and
`done : Nat → Bool` telling whether the processing context has ended by that
tick. Execute calls are abstracted by their outcome. -/

/-- Modelled from the spec: outcome of one `Execute` call of a task.
`cancelled` is the case where the processing context ends while Execute is
running (spec step 5, last clause). -/
inductive ExecResult where
| success
| failure
| cancelled
deriving DecidableEq

/-- Modelled from the spec: the capability set of a task (spec section 4.4),
with `Execute` abstracted to its outcome as a function of the task's internal
attempt counter (the number of Execute calls already made), and `ShouldRetry`
a pure function of that same counter. -/
structure TaskModel where
  exec : Nat → ExecResult
  shouldRetry : Nat → Bool

/-- Modelled from the spec: terminal observation for one dequeued task
(spec section 3 task states). `stillWaiting` means the bounded observation
window (the fuel) ended before the task reached a terminal state. -/
inductive TaskFate where
| completed
| abandoned
| cancelled
| stillWaiting
deriving DecidableEq

/-- Result of the wait-for-connection loop (spec step 3). -/
inductive WaitResult (K : Type) where
| found (c : K) (t : Nat)
| ctxEnded
| expired
deriving DecidableEq

/-- Modelled from the spec, worker step 3: poll the Connection Slot at a fixed
interval until it is non-nil or the processing context ends; the first `Nat`
argument is the bounded observation window (number of polls), the second the
current tick. -/
def waitConn (slot : Nat → Option K) (done : Nat → Bool) : Nat → Nat → WaitResult K
  | 0, _ => .expired
  | fuel + 1, t =>
    if done t then .ctxEnded
    else
      match slot t with
      | some c => .found c t
      | none => waitConn slot done fuel (t + 1)

/-- Modelled from the spec, worker steps 4-5: execute the task; on success
discard it; on failure consult the retry predicate and either repeat in place
or abandon; if the processing context ends while Execute is running, mark the
task Cancelled without consulting the retry predicate. `a` is the number of
Execute calls already made; the returned `Nat` is the total number of Execute
calls. -/
def retryLoop (exec : Nat → ExecResult) (shouldRetry : Nat → Bool) :
    Nat → Nat → TaskFate × Nat
  | 0, a => (.stillWaiting, a)
  | fuel + 1, a =>
    match exec a with
    | .success => (.completed, a + 1)
    | .cancelled => (.cancelled, a + 1)
    | .failure =>
      if shouldRetry (a + 1) then retryLoop exec shouldRetry fuel (a + 1)
      else (.abandoned, a + 1)

/-- Modelled from the spec: one full worker cycle for one dequeued task
(steps 3-5): wait for a connection, then run the execute/retry loop. Returns
the task's fate, its total Execute call count, and the tick at which the
worker returns to dequeue the next task. Execute is never invoked unless the
wait ended in `found`. -/
def processTask (task : TaskModel) (slot : Nat → Option K) (done : Nat → Bool)
    (pollFuel execFuel t0 : Nat) : TaskFate × Nat × Nat :=
  match waitConn slot done pollFuel t0 with
  | .ctxEnded => (.cancelled, 0, t0)
  | .expired => (.stillWaiting, 0, t0)
  | .found _ t =>
    let r := retryLoop task.exec task.shouldRetry execFuel 0
    (r.1, r.2, t + 1)

/-- Modelled from the spec: the worker loop over the queued tasks in FIFO
order (step 1 plus the cycle): each task is processed fully before the next;
when a task ends Cancelled (the processing context ended) or the observation
window expires, the worker stops permanently and no later task is touched
(spec step 3 and step 5, last clause). -/
def workerRun (slot : Nat → Option K) (done : Nat → Bool) (pollFuel execFuel : Nat) :
    List TaskModel → Nat → List (TaskFate × Nat)
  | [], _ => []
  | task :: rest, t0 =>
    match processTask task slot done pollFuel execFuel t0 with
    | (.completed, n, t1) => (.completed, n) :: workerRun slot done pollFuel execFuel rest t1
    | (.abandoned, n, t1) => (.abandoned, n) :: workerRun slot done pollFuel execFuel rest t1
    | (.cancelled, n, _) => [(.cancelled, n)]
    | (.stillWaiting, n, _) => [(.stillWaiting, n)]

end UP4W

namespace AgentConfig

/-! ### The `config` package, embedded from the Go source
(`src/unnamed/part_002`). -/

/-- Subscription sources, embedded from the source enum: sorted in ascending
order of precedence, with `subscriptionMaxPriority` a sentinel. Encoded with
the Go `iota` numbering. -/
def SubscriptionNone : Nat := 0

/-- `SubscriptionOrganization`: token introduced via the registry by the
sys admin. -/
def SubscriptionOrg : Nat := 1

/-- `SubscriptionUser`: token introduced via the registry or the GUI. -/
def SubscriptionUser : Nat := 2

/-- `SubscriptionMicrosoftStore`: subscription acquired via the Microsoft
Store. -/
def SubscriptionMicrosoftStore : Nat := 3

/-- `subscriptionMaxPriority`: sentinel, always the last enum value. -/
def subscriptionMaxPriority : Nat := 4

/-- `configData`, embedded from the source: the bag of data unrelated to the
subscription status. -/
structure ConfigData where
  landscapeClientConfig : String
  landscapeAgentUID : String
deriving DecidableEq

/-- `Config`, embedded from the source: in-memory mirror of the registry
contents. The Go `map[SubscriptionSource]string` is embedded as a function
into `Option String` (`none` = key absent). -/
structure Config where
  proTokens : Nat → Option String
  data : ConfigData

/-- The descending loop body of `Config.subscription`, embedded from the
source: `for src := subscriptionMaxPriority - 1; src > SubscriptionNone;
src--`, skipping absent (`!ok`) and empty tokens, returning the first hit. -/
def subscriptionLoop (proTokens : Nat → Option String) : Nat → String × Nat
  | 0 => ("", SubscriptionNone)
  | src + 1 =>
    match proTokens (src + 1) with
    | none => subscriptionLoop proTokens src
    | some token =>
      if token = "" then subscriptionLoop proTokens src else (token, src + 1)

/-- `Config.subscription`, embedded from the source: returns the ProToken and
the method it was acquired with (if any). -/
def subscription (proTokens : Nat → Option String) : String × Nat :=
  subscriptionLoop proTokens (subscriptionMaxPriority - 1)

/-- The token a source holds, normalising the absent and empty cases to
`none`. Used only to phrase the claimed resolution order. -/
def heldToken (proTokens : Nat → Option String) (src : Nat) : Option String :=
  match proTokens src with
  | none => none
  | some t => if t = "" then none else some t

/-- The resolution the claim describes, written from its words: the token of
the highest-precedence source (MicrosoftStore over User over Organization)
whose stored token is non-empty, together with that source; else the empty
token with source `SubscriptionNone`. Compared against `subscription`, which
is embedded from the source. -/
def subscriptionResolved (proTokens : Nat → Option String) : String × Nat :=
  match heldToken proTokens SubscriptionMicrosoftStore with
  | some t => (t, SubscriptionMicrosoftStore)
  | none =>
    match heldToken proTokens SubscriptionUser with
    | some t => (t, SubscriptionUser)
    | none =>
      match heldToken proTokens SubscriptionOrg with
      | some t => (t, SubscriptionOrg)
      | none => ("", SubscriptionNone)

/-- Environment of one setter call: the outcome of `Config.load` at the start
of the call. `err` = the registry read failed (the setter returns the error
with the in-memory state untouched); `ok pt d` = the loaded registry contents,
which `load` commits to memory before the overwrite. -/
inductive LoadResult where
| err
| ok (proTokens : Nat → Option String) (data : ConfigData)

/-- `Config.SetSubscription`, embedded from the source: load (commit registry
contents to memory; on failure return the error), remember the old value of
the entry (Go map read: absent key yields `""`), overwrite it, dump; if the
dump fails, write the old value back into the entry and return the error.
`dumpOk` abstracts whether the registry write succeeds; the returned `Bool`
is true iff the call returned no error. -/
def SetSubscription (c : Config) (lr : LoadResult) (dumpOk : Bool)
    (source : Nat) (proToken : String) : Config × Bool :=
  match lr with
  | .err => (c, false)
  | .ok pt d =>
    let old := (pt source).getD ""
    let pt2 := Function.update pt source (some proToken)
    if dumpOk then (⟨pt2, d⟩, true)
    else (⟨Function.update pt2 source (some old), d⟩, false)

/-- `Config.SetLandscapeAgentUID`, embedded from the source: load (commit
registry contents to memory; on failure return the error), remember the old
UID, overwrite it, dump; if the dump fails, restore the old UID and return
the error. -/
def SetLandscapeAgentUID (c : Config) (lr : LoadResult) (dumpOk : Bool)
    (uid : String) : Config × Bool :=
  match lr with
  | .err => (c, false)
  | .ok pt d =>
    let old := d.landscapeAgentUID
    if dumpOk then (⟨pt, ⟨d.landscapeClientConfig, uid⟩⟩, true)
    else (⟨pt, ⟨d.landscapeClientConfig, old⟩⟩, false)

end AgentConfig

/-! ## Helper lemmas -/

namespace UP4W

variable {K T : Type}

/-- Submitting a list into an open queue with enough room succeeds and appends
the tasks in submission order. -/
theorem submitAll_ok (ts : List T) :
    ∀ q : TaskQueue T, q.closed = false →
      q.pending.length + ts.length ≤ q.capacity →
      TaskQueue.submitAll q ts = .ok ⟨q.capacity, q.pending ++ ts, false⟩ := by
  induction ts with
  | nil =>
    intro q hcl _
    cases q
    simp_all [TaskQueue.submitAll]
  | cons t ts ih =>
    intro q hcl hlen
    simp only [List.length_cons] at hlen
    have hlt : q.pending.length < q.capacity := by omega
    have hsub : q.SubmitTask t = .ok ⟨q.capacity, q.pending ++ [t], false⟩ := by
      simp [TaskQueue.SubmitTask, hcl, Nat.not_le.mpr hlt]
    have hrec := ih ⟨q.capacity, q.pending ++ [t], false⟩ rfl (by simp; omega)
    simp [TaskQueue.submitAll, hsub]
    simpa [List.append_assoc] using hrec

/-- If the wait-for-connection loop reports `found c t`, then at tick `t` the
processing context had not ended and the slot held `c`. -/
theorem waitConn_found (slot : Nat → Option K) (done : Nat → Bool) :
    ∀ (fuel t0 : Nat) (c : K) (t : Nat),
      waitConn slot done fuel t0 = .found c t → done t = false ∧ slot t = some c := by
  intro fuel
  induction fuel with
  | zero =>
    intro t0 c t h
    simp [waitConn] at h
  | succ fuel ih =>
    intro t0 c t h
    rw [waitConn] at h
    by_cases hd : done t0
    · simp [hd] at h
    · simp only [hd, Bool.false_eq_true, if_false] at h
      cases hs : slot t0 with
      | none =>
        rw [hs] at h
        exact ih _ _ _ h
      | some c2 =>
        rw [hs] at h
        obtain ⟨hc, ht⟩ := WaitResult.found.inj h.symm
        subst hc
        subst ht
        exact ⟨by simpa using hd, hs⟩

/-- An always-failing task whose retry predicate caps total attempts at `N` is
executed exactly `N` times and then abandoned. -/
theorem retryLoop_always_fail (exec : Nat → ExecResult) (sr : Nat → Bool) (N : Nat)
    (hexec : ∀ a, exec a = .failure) (hsr : ∀ k, sr k = decide (k < N)) :
    ∀ (fuel a : Nat), a < N → N - a ≤ fuel →
      retryLoop exec sr fuel a = (.abandoned, N) := by
  intro fuel
  induction fuel with
  | zero =>
    intro a ha hfuel
    omega
  | succ fuel ih =>
    intro a ha hfuel
    rw [retryLoop, hexec a]
    by_cases hlt : a + 1 < N
    · rw [hsr (a + 1), if_pos (by simpa using hlt)]
      exact ih (a + 1) hlt (by omega)
    · rw [hsr (a + 1), if_neg (by simpa using hlt)]
      have : a + 1 = N := by omega
      rw [this]

/-- If the task's Execute is interrupted by context cancellation on the
`(k+1)`-th call (after `k` failing calls, each permitted to retry), the
retry loop stops with fate `cancelled` and exactly `k+1` calls, without
consulting the retry predicate. -/
theorem retryLoop_cancelled (exec : Nat → ExecResult) (sr : Nat → Bool) (k : Nat)
    (hfail : ∀ i, i < k → exec i = .failure)
    (hcan : exec k = .cancelled)
    (hsr : ∀ i, i < k → sr (i + 1) = true) :
    ∀ (fuel a : Nat), a ≤ k → k - a < fuel →
      retryLoop exec sr fuel a = (.cancelled, k + 1) := by
  intro fuel
  induction fuel with
  | zero =>
    intro a ha hfuel
    omega
  | succ fuel ih =>
    intro a ha hfuel
    by_cases hak : a = k
    · subst hak
      rw [retryLoop, hcan]
    · have halt : a < k := by omega
      rw [retryLoop, hfail a halt, hsr a halt, if_pos rfl]
      exact ih (a + 1) (by omega) (by omega)

end UP4W

/-! ## Claim theorems -/

namespace UP4W

variable {K T : Type}

/-- Claim C1: for a task whose Execute always fails and whose ShouldRetry
predicate permits exactly `N` attempts (it allows another attempt iff fewer
than `N` Execute calls were made), once the worker dequeues it with a live
connection (the wait-for-connection loop returns `found`), Execute is invoked
exactly `N` times in a row — retrying in place, with no requeue and no
interleaving: the continuation processes only the remaining tasks — and the
task is then abandoned with no further Execute invocation. -/
theorem C1_always_failing_task_executes_exactly_N
    (task : TaskModel) (slot : Nat → Option K) (done : Nat → Bool)
    (N pollFuel execFuel t0 : Nat) (rest : List TaskModel) (c : K) (t : Nat)
    (hexec : ∀ a, task.exec a = .failure)
    (hsr : ∀ k, task.shouldRetry k = decide (k < N))
    (hN : 0 < N) (hfuel : N ≤ execFuel)
    (hconn : waitConn slot done pollFuel t0 = .found c t) :
    workerRun slot done pollFuel execFuel (task :: rest) t0 =
      (.abandoned, N) :: workerRun slot done pollFuel execFuel rest (t + 1) := by
  have hloop : retryLoop task.exec task.shouldRetry execFuel 0 = (.abandoned, N) :=
    retryLoop_always_fail task.exec task.shouldRetry N hexec hsr execFuel 0 hN (by omega)
  have hproc : processTask task slot done pollFuel execFuel t0 = (.abandoned, N, t + 1) := by
    simp [processTask, hconn, hloop]
  rw [workerRun, hproc]

/-- Witness for C1, with the concrete numbers of `distro_test.go`
(`testTaskMaxRetries = 5`): the task is executed 5 times then abandoned. -/
theorem C1_witness :
    workerRun (K := Unit) (fun _ => some ()) (fun _ => false) 1 5
        [⟨fun _ => .failure, fun k => decide (k < 5)⟩] 0 =
      (.abandoned, 5) :: workerRun (fun _ => some ()) (fun _ => false) 1 5 [] (0 + 1) :=
  C1_always_failing_task_executes_exactly_N
    ⟨fun _ => .failure, fun k => decide (k < 5)⟩ (fun _ => some ()) (fun _ => false)
    5 1 5 0 [] () 0 (fun _ => rfl) (fun _ => rfl) (by decide) (by decide) rfl

/-- Claim C3: for every task and environment of one worker, Execute is never
invoked while `Client()` returns none: a positive Execute count implies that
at some tick the processing context was alive and the slot held a capability;
and if the slot never becomes non-nil, the task is executed zero times
(within any bounded observation window). -/
theorem C3_no_execution_without_client (task : TaskModel) (slot : Nat → Option K)
    (done : Nat → Bool) (pollFuel execFuel t0 : Nat) :
    ((∀ t, slot t = none) → (processTask task slot done pollFuel execFuel t0).2.1 = 0)
  ∧ (0 < (processTask task slot done pollFuel execFuel t0).2.1 →
      ∃ t c, done t = false ∧ slot t = some c) := by
  cases hw : waitConn slot done pollFuel t0 with
  | found c t =>
    have hspec := waitConn_found slot done pollFuel t0 c t hw
    constructor
    · intro hnone
      rw [hnone t] at hspec
      exact absurd hspec.2 (by simp)
    · intro _
      exact ⟨t, c, hspec⟩
  | ctxEnded =>
    constructor
    · intro _
      simp [processTask, hw]
    · intro hpos
      rw [processTask, hw] at hpos
      simp at hpos
  | expired =>
    constructor
    · intro _
      simp [processTask, hw]
    · intro hpos
      rw [processTask, hw] at hpos
      simp at hpos

/-- Witness for C3: with a slot that never holds a connection, the task is
executed zero times. -/
theorem C3_witness :
    (processTask (K := Unit) ⟨fun _ => .success, fun _ => true⟩
        (fun _ => none) (fun _ => false) 3 3 0).2.1 = 0 :=
  (C3_no_execution_without_client ⟨fun _ => .success, fun _ => true⟩
    (fun _ => none) (fun _ => false) 3 3 0).1 (fun _ => rfl)

/-- Claim C4: if the processing context is cancelled while the task's Execute
is running (the `(k+1)`-th call returns `cancelled`, after `k` failing calls),
the call is marked Cancelled and the worker stops without consulting the
retry predicate: the run ends with exactly `k+1` Execute calls and no entry
for any later task, even though `ShouldRetry` would return true after every
call, including the cancelled one. -/
theorem C4_cancellation_stops_worker_without_retry
    (task : TaskModel) (slot : Nat → Option K) (done : Nat → Bool)
    (k pollFuel execFuel t0 : Nat) (rest : List TaskModel) (c : K) (t : Nat)
    (hfail : ∀ i, i < k → task.exec i = .failure)
    (hcan : task.exec k = .cancelled)
    (hsr : ∀ i, i ≤ k → task.shouldRetry (i + 1) = true)
    (hfuel : k < execFuel)
    (hconn : waitConn slot done pollFuel t0 = .found c t) :
    workerRun slot done pollFuel execFuel (task :: rest) t0 = [(.cancelled, k + 1)] := by
  have hloop : retryLoop task.exec task.shouldRetry execFuel 0 = (.cancelled, k + 1) :=
    retryLoop_cancelled task.exec task.shouldRetry k hfail hcan
      (fun i hi => hsr i (by omega)) execFuel 0 (by omega) (by omega)
  have hproc : processTask task slot done pollFuel execFuel t0 = (.cancelled, k + 1, t + 1) := by
    simp [processTask, hconn, hloop]
  rw [workerRun, hproc]

/-- Witness for C4: a task cancelled on its first Execute call, with a retry
predicate that always permits retrying and a further task pending: the run
records one cancelled call and the pending task is never executed. -/
theorem C4_witness :
    workerRun (K := Unit) (fun _ => some ()) (fun _ => false) 1 3
        [⟨fun _ => .cancelled, fun _ => true⟩, ⟨fun _ => .success, fun _ => true⟩] 0 =
      [(.cancelled, 1)] :=
  C4_cancellation_stops_worker_without_retry
    ⟨fun _ => .cancelled, fun _ => true⟩ (fun _ => some ()) (fun _ => false)
    0 1 3 0 [⟨fun _ => .success, fun _ => true⟩] () 0
    (fun i hi => absurd hi (by omega)) rfl (fun _ _ => rfl) (by decide) rfl

end UP4W

namespace UP4W

variable {K T : Type}

/-- Claim C2: for a task queue of fixed capacity `C` created empty and open:
while nothing drains, submitting `C` tasks succeeds one by one and leaves the
queue holding exactly those tasks in submission order (FIFO), the `(C+1)`-th
submission fails with QueueFull, and after one task is dequeued (the oldest
one — FIFO) one further submission succeeds. -/
theorem C2_queue_full_at_capacity (C : Nat) (ts : List T) (extra t2 : T)
    (_hC : 0 < C) (hlen : ts.length = C) :
    TaskQueue.submitAll ⟨C, [], false⟩ ts = .ok ⟨C, ts, false⟩
  ∧ TaskQueue.SubmitTask ⟨C, ts, false⟩ extra = .error .queueFull
  ∧ ∀ h : ts ≠ [],
      TaskQueue.dequeue ⟨C, ts, false⟩ = some (ts.head h, ⟨C, ts.tail, false⟩)
      ∧ TaskQueue.SubmitTask ⟨C, ts.tail, false⟩ t2 = .ok ⟨C, ts.tail ++ [t2], false⟩ := by
  refine ⟨?_, ?_, ?_⟩
  · have := submitAll_ok ts ⟨C, [], false⟩ rfl (by simp [hlen])
    simpa using this
  · simp [TaskQueue.SubmitTask, hlen]
  · intro h
    cases ts with
    | nil => exact absurd rfl h
    | cons a as =>
      refine ⟨rfl, ?_⟩
      have hlt : as.length < C := by
        simp only [List.length_cons] at hlen
        omega
      simp [TaskQueue.SubmitTask, Nat.not_le.mpr hlt]

/-- Witness for C2 at capacity 2: the two submissions succeed in order, the
third fails with QueueFull, and after dequeueing the oldest task a further
submission succeeds. -/
theorem C2_witness :
    TaskQueue.submitAll (⟨2, [], false⟩ : TaskQueue Nat) [10, 20] = .ok ⟨2, [10, 20], false⟩
  ∧ TaskQueue.SubmitTask (⟨2, [10, 20], false⟩ : TaskQueue Nat) 30 = .error .queueFull
  ∧ ∀ h : ([10, 20] : List Nat) ≠ [],
      TaskQueue.dequeue (⟨2, [10, 20], false⟩ : TaskQueue Nat)
          = some (([10, 20] : List Nat).head h, ⟨2, [20], false⟩)
      ∧ TaskQueue.SubmitTask (⟨2, [20], false⟩ : TaskQueue Nat) 40 = .ok ⟨2, [20, 40], false⟩ :=
  C2_queue_full_at_capacity 2 [10, 20] 30 40 (by decide) (by decide)

/-- Claim C5: after Cleanup, every subsequent SubmitTask call fails with the
Closed condition, regardless of the queue's prior state (any `d`), and
Cleanup is idempotent: a second Cleanup leaves the Instance unchanged. -/
theorem C5_cleanup_closes_queue_idempotent (d : Distro K T) (t : T) :
    d.Cleanup.SubmitTask t = .error .closed ∧ d.Cleanup.Cleanup = d.Cleanup :=
  ⟨rfl, rfl⟩

/-- Claim C6: construction fails with NotExist — creating no Instance —
whenever the named endpoint is absent from the registry or a given GUID
constraint does not match the registry's identity for that name; on success
the Instance's name and properties are those it was constructed with and its
GUID is the registry's canonical identity, equal to the constraint when one
was given. -/
theorem C6_new_validates_identity (reg : String → Option String)
    (name : String) (props : Props) (guidArg : Option String) :
    (reg name = none → New (K := K) (T := T) reg name props guidArg = .error .mk)
  ∧ (∀ g g2, reg name = some g → guidArg = some g2 → g2 ≠ g →
      New (K := K) (T := T) reg name props guidArg = .error .mk)
  ∧ (∀ d : Distro K T, New reg name props guidArg = .ok d →
      d.Name = name ∧ d.Properties = props ∧ reg name = some d.GUID
      ∧ ∀ g2, guidArg = some g2 → d.GUID = g2) := by
  refine ⟨?_, ?_, ?_⟩
  · intro h
    simp [New, h]
  · intro g g2 hg hga hne
    simp [New, hg, hga, hne]
  · intro d h
    cases hr : reg name with
    | none => simp [New, hr] at h
    | some g =>
      cases hga : guidArg with
      | none =>
        rw [New, hr, hga] at h
        simp only [Except.ok.injEq] at h
        subst h
        exact ⟨rfl, rfl, rfl, fun g2 hg2 => by simp at hg2⟩
      | some g2 =>
        by_cases he : g2 = g
        · rw [New, hr, hga] at h
          simp only [if_pos he, Except.ok.injEq] at h
          subst h
          refine ⟨rfl, rfl, rfl, ?_⟩
          intro g3 hg3
          simp only [Option.some.injEq] at hg3
          subst hg3
          exact he.symm
        · rw [New, hr, hga] at h
          simp [he] at h

/-- Witness for C6: a name absent from the registry makes construction fail
with NotExist. -/
theorem C6_witness :
    New (K := Unit) (T := Unit) (fun _ => none) "missing" ⟨"", "", "", false⟩ none
      = .error .mk :=
  (C6_new_validates_identity (fun _ => none) "missing" ⟨"", "", "", false⟩ none).1 rfl

/-- Claim C7: the Connection Slot holds only the most recently set
capability: after setting `c1` then `c2`, `Client()` returns `c2`; the
snapshot a dispatched call took while `c1` was live is the value `some c1`
and, being a value, is unaffected by the later replacement; after setting
none, `Client()` returns none and `IsActive()` is false; and `IsActive()` is
true iff a capability is currently held. -/
theorem C7_slot_holds_latest (s : ConnSlot K) (c1 c2 : K) :
    ((s.SetConnection (some c1)).SetConnection (some c2)).Client = some c2
  ∧ (s.SetConnection (some c1)).Client = some c1
  ∧ ((s.SetConnection (some c1)).SetConnection none).Client = none
  ∧ ((s.SetConnection (some c1)).SetConnection none).IsActive = false
  ∧ (s.IsActive = true ↔ ∃ c, s.Client = some c) := by
  refine ⟨rfl, rfl, rfl, rfl, ?_⟩
  simp [ConnSlot.IsActive, ConnSlot.Client, Option.isSome_iff_exists]

/-- Claim C8: `IsValid` is a total boolean function (it never returns an
error) and it returns true iff the stored name and identity match the
registry's current answer: the registry maps the stored name to exactly the
stored GUID. -/
theorem C8_isvalid_iff_registry_match (d : Distro K T) (reg : String → Option String) :
    d.IsValid reg = true ↔ reg d.Name = some d.GUID := by
  unfold Distro.IsValid
  cases hr : reg d.Name with
  | none => simp
  | some g => simp

end UP4W

namespace AgentConfig

/-- Claim C9, counterexample: the claim says that when the registry dump
fails, the in-memory pro token for the source is rolled back to the value it
held before the call. Concrete input: the in-memory config holds no token for
`SubscriptionUser` (as right after `New`), the registry load at the start of
the call returns the token `"registry-token"` for that source, and the dump
fails. After `SetSubscription(ctx, "new-token", SubscriptionUser)` the
in-memory token for `SubscriptionUser` is `some "registry-token"` — the value
committed by the load — not the pre-call value `none`, so the claim as stated
is false (the error is still returned). -/
theorem C9_counterexample :
    ((SetSubscription ⟨fun _ => none, ⟨"", ""⟩⟩
        (.ok (fun s => if s = SubscriptionUser then some "registry-token" else none) ⟨"", ""⟩)
        false SubscriptionUser "new-token").1.proTokens SubscriptionUser
      ≠ (⟨fun _ => none, ⟨"", ""⟩⟩ : Config).proTokens SubscriptionUser)
  ∧ (SetSubscription ⟨fun _ => none, ⟨"", ""⟩⟩
        (.ok (fun s => if s = SubscriptionUser then some "registry-token" else none) ⟨"", ""⟩)
        false SubscriptionUser "new-token").2 = false := by
  constructor
  · simp [SetSubscription, Function.update_same]
  · rfl

/-- Claim C9 (amended): `Config.SetSubscription` and
`Config.SetLandscapeAgentUID` are atomic with respect to failure of the
registry write: if dumping to the registry fails, the in-memory value (the
pro token for that source, or the Landscape agent UID) is rolled back to the
value freshly loaded from the registry at the start of the call — the value
it held immediately before the overwrite (for a token: that source's loaded
token, or `""` when absent, per Go map read semantics) — the entries for the
other sources keep their loaded values, and the error is returned to the
caller. -/
theorem C9_rollback_to_loaded_value (c : Config) (lr : LoadResult)
    (source : Nat) (tok uid : String) (pt : Nat → Option String) (d : ConfigData)
    (h : lr = .ok pt d) :
    ((SetSubscription c lr false source tok).1.proTokens source = some ((pt source).getD "")
      ∧ (∀ s, s ≠ source → (SetSubscription c lr false source tok).1.proTokens s = pt s)
      ∧ (SetSubscription c lr false source tok).2 = false)
  ∧ ((SetLandscapeAgentUID c lr false uid).1.data = d
      ∧ (SetLandscapeAgentUID c lr false uid).2 = false) := by
  subst h
  refine ⟨⟨?_, ?_, rfl⟩, ?_, rfl⟩
  · simp [SetSubscription, Function.update_same]
  · intro s hs
    simp [SetSubscription, Function.update_noteq hs]
  · rfl

/-- Witness for amended C9: the no-error flag is false on a concrete failed
dump, and the token was rolled back to the loaded value. -/
theorem C9_witness :
    (SetSubscription ⟨fun _ => none, ⟨"", ""⟩⟩ (.ok (fun _ => some "ld") ⟨"", ""⟩)
        false SubscriptionUser "tok").1.proTokens SubscriptionUser
      = some (((fun _ => some "ld") SubscriptionUser : Option String).getD "") :=
  ((C9_rollback_to_loaded_value ⟨fun _ => none, ⟨"", ""⟩⟩
    (.ok (fun _ => some "ld") ⟨"", ""⟩) SubscriptionUser "tok" "u"
    (fun _ => some "ld") ⟨"", ""⟩ rfl).1).1

/-- Claim C10: `Config.subscription` resolves among sources by fixed
precedence — MicrosoftStore over User over Organization — returning the token
of the highest-precedence source whose stored token is present and non-empty,
together with that source, and `("", SubscriptionNone)` when no source holds
a non-empty token: it equals the resolution function written from the claim's
words. -/
theorem C10_subscription_precedence (pt : Nat → Option String) :
    subscription pt = subscriptionResolved pt := by
  have step : ∀ (src : Nat),
      subscriptionLoop pt (src + 1) =
        match pt (src + 1) with
        | none => subscriptionLoop pt src
        | some token =>
          if token = "" then subscriptionLoop pt src else (token, src + 1) :=
    fun _ => rfl
  have e : subscription pt = subscriptionLoop pt (2 + 1) := rfl
  rw [e, step 2]
  unfold subscriptionResolved heldToken SubscriptionMicrosoftStore SubscriptionUser SubscriptionOrg
  cases h3 : pt 3 with
  | some t3 =>
    by_cases h3e : t3 = "" <;> simp [h3e, step 1]
    · cases h2 : pt 2 with
      | some t2 =>
        by_cases h2e : t2 = "" <;> simp [h2e, step 0]
        · cases h1 : pt 1 with
          | some t1 => by_cases h1e : t1 = "" <;> simp [h1e, subscriptionLoop, SubscriptionNone]
          | none => simp [subscriptionLoop, SubscriptionNone]
      | none =>
        simp [step 0]
        cases h1 : pt 1 with
        | some t1 => by_cases h1e : t1 = "" <;> simp [h1e, subscriptionLoop, SubscriptionNone]
        | none => simp [subscriptionLoop, SubscriptionNone]
  | none =>
    simp [step 1]
    cases h2 : pt 2 with
    | some t2 =>
      by_cases h2e : t2 = "" <;> simp [h2e, step 0]
      · cases h1 : pt 1 with
        | some t1 => by_cases h1e : t1 = "" <;> simp [h1e, subscriptionLoop, SubscriptionNone]
        | none => simp [subscriptionLoop, SubscriptionNone]
    | none =>
      simp [step 0]
      cases h1 : pt 1 with
      | some t1 => by_cases h1e : t1 = "" <;> simp [h1e, subscriptionLoop, SubscriptionNone]
      | none => simp [subscriptionLoop, SubscriptionNone]

end AgentConfig
